import Mathlib

set_option maxRecDepth 8000

/- Shallow embedding of scripts/verify.py: a validator for fixed-format
   (punch-card style) FORTRAN source lines.  Python strings are modelled as
   List Char; the per-line statement text is a list of characters. -/

/-- Characters removed by the strip method of Python strings (str.isspace
for the ASCII range): space, tab, newline, vertical tab, form feed,
carriage return. -/
def pyIsSpace (c : Char) : Bool :=
  c == ' ' || c == '\t' || c == '\n' || c == Char.ofNat 11 || c == Char.ofNat 12 || c == '\r'

/-- Both-ends whitespace trimming: models the strip method of Python strings. -/
def pyStrip (s : List Char) : List Char :=
  ((s.dropWhile pyIsSpace).reverse.dropWhile pyIsSpace).reverse

/-- ASCII decimal digit test. -/
def isDigitChar (c : Char) : Bool := decide ('0' ≤ c) && decide (c ≤ '9')

/-- Models the isdigit method of Python strings on the decimal fragment:
true iff the string is nonempty and every character is a decimal digit.
(Python's isdigit additionally accepts some non-decimal Unicode digit
characters; that departure is modelled separately by pyIsDigitStrU below
and is irrelevant to the decimal-digit reasoning here.) -/
def pyIsDigitStr (s : List Char) : Bool := !s.isEmpty && s.all isDigitChar

/-- Base-10 value of a list of digit characters, most significant first. -/
def natOfDigits (s : List Char) : Nat :=
  s.foldl (fun acc c => 10 * acc + (c.toNat - '0'.toNat)) 0

/-- Models int(s) for a Python string of decimal digits surrounded by
optional whitespace (the only shape on which the script calls int). -/
def pyIntNat (s : List Char) : Nat := natOfDigits (pyStrip s)

/-- Python slice s[a:b] for 0 ≤ a ≤ b. -/
def pySlice (s : List Char) (a b : Nat) : List Char := (s.drop a).take (b - a)

/-- The permitted-character alphabet, exactly as the CHARSET constant of
scripts/verify.py (the hyphen occurs twice in the literal). -/
def CHARSET : String := "123456789 =-ABCDEFGHI+.)JKLMNOPQR-$*/STUVWXYZ0,("

/-- One finding, mirroring class Issue of scripts/verify.py. -/
structure Issue where
  fp : String
  ln : Nat
  cols : List Nat
  statement : List Char
  details : List String
  dangerous : Bool
  suggestions : List String
deriving DecidableEq

/-- Running state of the validation loop: the label table (a Python dict,
modelled as an insertion-ordered association list from label value to the
line recorded for it) and the sequence cursor (initialized to -1). -/
structure VState where
  labels : List (Nat × Nat)
  sequencing : Int
deriving DecidableEq

/-- Membership lookup in the label dict: labels[k] when k in labels.keys(). -/
def dictFind (d : List (Nat × Nat)) (k : Nat) : Option Nat :=
  (d.find? (fun p => p.1 == k)).map (fun p => p.2)

/-- Python dict assignment labels[k] = v: updates the entry in place when the
key is present, otherwise appends it. -/
def dictInsert (d : List (Nat × Nat)) (k v : Nat) : List (Nat × Nat) :=
  if (d.find? (fun p => p.1 == k)).isSome
  then d.map (fun p => if p.1 == k then (k, v) else p)
  else d ++ [(k, v)]

/-- max(labels.keys()): only ever evaluated on a nonempty dict, where the
0 base of the fold is absorbed. -/
def dictMaxKey (d : List (Nat × Nat)) : Nat := d.foldl (fun m p => max m p.1) 0

/-- The shared shape of the three per-character scanning loops of the
script (statement charset, label charset, sequence charset): enumerate the
characters, and for each one outside the allowed set emit one Issue whose
single column is the offset plus the running index. -/
def charLoop (fp : String) (ln : Nat) (stmt : List Char) (allowed : List Char)
    (details : List String) (dangerous : Bool) (suggestions : List String)
    (off : Nat) : Nat → List Char → List Issue
  | _, [] => []
  | k, c :: cs =>
      (if allowed.contains c then []
       else [⟨fp, ln, [off + k], stmt, details, dangerous, suggestions⟩])
        ++ charLoop fp ln stmt allowed details dangerous suggestions off (k + 1) cs

/-- statement.startswith("C"). -/
def isComment (s : List Char) : Bool := s.head? == some 'C'

/-- Label field, statement[0:5]. -/
def labelField (s : List Char) : List Char := pySlice s 0 5

/-- Continuation field, statement[5:6]. -/
def contField (s : List Char) : List Char := pySlice s 5 6

/-- Sequence field, statement[72:80]. -/
def seqField (s : List Char) : List Char := pySlice s 72 80

/-- The Warning emitted when the (both-ends) stripped statement exceeds 80
characters: columns 81 through the stripped length. -/
def overflowIssue (fp : String) (ln : Nat) (s : List Char) : Issue :=
  ⟨fp, ln, List.range' 81 ((pyStrip s).length - 80), s,
    ["statement exceeds 80 column limit", ""], false,
    ["break statement across multiple lines using continuation field"]⟩

/-- The duplicate-label Error; m is labels[int(label)], the line currently
recorded for the label. -/
def dupLabelIssue (fp : String) (ln : Nat) (s : List Char) (m : Nat) : Issue :=
  ⟨fp, ln, [1, 2, 3, 4, 5], s,
    ["duplicate label", "already defined on line " ++ toString m], true,
    ["try relabelling"]⟩

/-- The badly-ordered-labels Warning; m is max(labels.keys()). -/
def badOrderIssue (fp : String) (ln : Nat) (s : List Char) (m : Nat) : Issue :=
  ⟨fp, ln, [1, 2, 3, 4, 5], s,
    ["badly ordered labels", "previous was " ++ toString m], false,
    ["label statements sequentially"]⟩

/-- The continuation-field Warning. -/
def contIssue (fp : String) (ln : Nat) (s : List Char) : Issue :=
  ⟨fp, ln, [6], s, ["continuation field contains", "illegal character"], false,
    ["use ! or * to denote a continuation statement"]⟩

/-- The left-justification Warning for the sequence field. -/
def leftJustIssue (fp : String) (ln : Nat) (s : List Char) : Issue :=
  ⟨fp, ln, [73, 74, 75, 76, 77, 78, 79, 80], s,
    ["consider left-justifying sequence field", ""], false, []⟩

/-- The decreasing-sequence-number Warning. -/
def decSeqIssue (fp : String) (ln : Nat) (s : List Char) : Issue :=
  ⟨fp, ln, [73, 74, 75, 76, 77, 78, 79, 80], s,
    ["decreasing sequence number", ""], false,
    ["number punchcards sequentially"]⟩

/-- Label semantics (duplicate and ordering checks); returns the emitted
issues and the new label table.  The assignment labels[int(label)] = ln in
the script is unconditional within the numeric-label branch. -/
def labelSemantics (fp : String) (ln : Nat) (s : List Char) (st : VState) :
    List Issue × List (Nat × Nat) :=
  let label := labelField s
  if !(pyStrip label).isEmpty && pyIsDigitStr (pyStrip label) then
    let L := pyIntNat label
    let issues :=
      match dictFind st.labels L with
      | some m => [dupLabelIssue fp ln s m]
      | none =>
          if 1 ≤ st.labels.length ∧ L < dictMaxKey st.labels
          then [badOrderIssue fp ln s (dictMaxKey st.labels)]
          else []
    (issues, dictInsert st.labels L ln)
  else ([], st.labels)

/-- The substring membership test of Python (needle in haystack). -/
def pyInStr (needle hay : List Char) : Bool := decide (needle <:+: hay)

/-- Continuation-field check: continuation.strip() nonempty and not a
substring of the valid-marker string. -/
def contIssues (fp : String) (ln : Nat) (s : List Char) : List Issue :=
  let t := pyStrip (contField s)
  if !t.isEmpty && !(pyInStr t "*!23456789".toList)
  then [contIssue fp ln s] else []

/-- Sequence charset loop: enumerates the stripped sequence field and
reports column 73 + index for each non-digit character. -/
def seqCharIssues (fp : String) (ln : Nat) (s : List Char) : List Issue :=
  charLoop fp ln s "0123456789".toList
    ["sequence field contains", "illegal character"] false ["try removing"]
    73 0 (pyStrip (seqField s))

/-- Left-justification check: the raw sequence field is nonempty and starts
with a space. -/
def leftJustIssues (fp : String) (ln : Nat) (s : List Char) : List Issue :=
  let sequence := seqField s
  if !sequence.isEmpty && sequence.head? == some ' '
  then [leftJustIssue fp ln s] else []

/-- Sequence monotonicity check; returns the emitted issues and the new
sequence cursor.  The comparison uses int(sequence.strip()) and the
assignment uses int(sequence); both strip, so the values agree. -/
def seqMono (fp : String) (ln : Nat) (s : List Char) (st : VState) :
    List Issue × Int :=
  let sequence := seqField s
  if !sequence.isEmpty && pyIsDigitStr (pyStrip sequence) then
    ((if (pyIntNat (pyStrip sequence) : Int) ≤ st.sequencing
      then [decSeqIssue fp ln s] else []),
     (pyIntNat sequence : Int))
  else ([], st.sequencing)

/-- One iteration of the main loop of scripts/verify.py: all checks applied
to one statement, in source order, returning the issues emitted for the
line and the updated running state. -/
def validateLine (fp : String) (ln : Nat) (s : List Char) (st : VState) :
    List Issue × VState :=
  let cIssues := charLoop fp ln s CHARSET.toList
    ["statement contains", "illegal character"] true ["try removing"] 1 0 s
  let lIssues :=
    if 80 < (pyStrip s).length then [overflowIssue fp ln s] else []
  if isComment s then (cIssues ++ lIssues, st)
  else
    let labIssues := charLoop fp ln s " 0123456789".toList
      ["label field contains", "illegal character"] true ["try removing"] 1 0 (labelField s)
    let sem := labelSemantics fp ln s st
    let ctIssues := contIssues fp ln s
    let sqIssues := seqCharIssues fp ln s
    let ljIssues := leftJustIssues fp ln s
    let mono := seqMono fp ln s st
    (cIssues ++ lIssues ++ labIssues ++ sem.1 ++ ctIssues ++ sqIssues ++ ljIssues ++ mono.1,
     ⟨sem.2, mono.2⟩)

/-- The whole loop: statements numbered from ln, threading the state. -/
def runAux (fp : String) (ln : Nat) (st : VState) :
    List (List Char) → List Issue × VState
  | [] => ([], st)
  | s :: rest =>
      let r := validateLine fp ln s st
      let r2 := runAux fp (ln + 1) r.2 rest
      (r.1 ++ r2.1, r2.2)

/-- A full validation run from fresh state (empty label table, cursor -1),
lines numbered from 1, returning the ordered issue sequence. -/
def runValidator (fp : String) (lines : List (List Char)) : List Issue :=
  (runAux fp 1 ⟨[], -1⟩ lines).1

/- Rendering (Issue.__str__), including the ANSI escape codes of class
   ANSI. -/

def ansiReset : String := "\x1b[0m"

def ansiBold : String := "\x1b[37;1m"

def ansiYellow : String := "\x1b[33m"

def ansiRed : String := "\x1b[31m"

/-- Python string repetition s * n. -/
def strMul (s : String) (n : Nat) : String := String.join (List.replicate n s)

/-- The multi-line report produced by the str conversion of an Issue:
header with file, line, first column, severity and joined details; the
gutter line with the statement text; the caret and tilde underline with the
second detail; then one help line per suggestion. -/
def Issue.render (i : Issue) : String :=
  let gutter := " " ++ toString i.ln ++ " | "
  let spacer := strMul " " (gutter.length - 2) ++ "| "
  ansiBold ++ i.fp ++ ":" ++ toString i.ln ++ ":" ++ toString (i.cols.headD 0)
    ++ ansiReset ++ ": "
    ++ (if i.dangerous then ansiRed else ansiYellow)
    ++ (if i.dangerous then "error" else "warning")
    ++ ansiReset ++ ": " ++ String.intercalate " " i.details ++ "\n"
    ++ gutter ++ String.mk i.statement ++ "\n"
    ++ spacer ++ strMul " " (i.cols.headD 0 - 1)
    ++ "^" ++ strMul "~" (i.cols.length - 1) ++ " " ++ i.details.getD 1 "" ++ "\n"
    ++ String.intercalate "\n"
        (i.suggestions.map (fun sug => strMul " " (gutter.length - 2) ++ "= help: " ++ sug))
    ++ "\n"

/- A finer model of the two numeric conversions, capturing the mismatch in
   Python between the isdigit method (true for every character carrying the
   Unicode digit property) and the int constructor (which accepts only
   decimal digits).  Modelled on the ASCII range together with the Latin-1
   superscript digits, which carry the digit property but are rejected by
   int; int raising ValueError is modelled as none. -/

/-- Python per-character isdigit, on the fragment consisting of the ASCII
digits and the Latin-1 superscript digits one, two, three. -/
def pyIsDigitCharU (c : Char) : Bool :=
  isDigitChar c || c == '¹' || c == '²' || c == '³'

/-- Python isdigit on strings, over pyIsDigitCharU. -/
def pyIsDigitStrU (s : List Char) : Bool := !s.isEmpty && s.all pyIsDigitCharU

/-- Python int(s): succeeds only when the stripped string is a nonempty run
of decimal digits; a superscript digit makes it raise (none). -/
def pyIntU (s : List Char) : Option Nat :=
  let t := pyStrip s
  if !t.isEmpty && t.all isDigitChar then some (natOfDigits t) else none

/-- Label semantics under the finer numeric model: none models the
ValueError raised by int(label) when isdigit accepted a non-decimal digit. -/
def labelSemanticsU (fp : String) (ln : Nat) (s : List Char) (st : VState) :
    Option (List Issue × List (Nat × Nat)) :=
  let label := labelField s
  if !(pyStrip label).isEmpty && pyIsDigitStrU (pyStrip label) then
    match pyIntU label with
    | none => none
    | some L =>
        let issues :=
          match dictFind st.labels L with
          | some m => [dupLabelIssue fp ln s m]
          | none =>
              if 1 ≤ st.labels.length ∧ L < dictMaxKey st.labels
              then [badOrderIssue fp ln s (dictMaxKey st.labels)]
              else []
        some (issues, dictInsert st.labels L ln)
  else some ([], st.labels)

/-- Sequence monotonicity under the finer numeric model. -/
def seqMonoU (fp : String) (ln : Nat) (s : List Char) (st : VState) :
    Option (List Issue × Int) :=
  let sequence := seqField s
  if !sequence.isEmpty && pyIsDigitStrU (pyStrip sequence) then
    match pyIntU (pyStrip sequence), pyIntU sequence with
    | some sv, some av =>
        some ((if (sv : Int) ≤ st.sequencing then [decSeqIssue fp ln s] else []),
          (av : Int))
    | _, _ => none
  else some ([], st.sequencing)

/-- One loop iteration under the finer numeric model; none models the
uncaught exception aborting the whole run. -/
def validateLineU (fp : String) (ln : Nat) (s : List Char) (st : VState) :
    Option (List Issue × VState) :=
  let cIssues := charLoop fp ln s CHARSET.toList
    ["statement contains", "illegal character"] true ["try removing"] 1 0 s
  let lIssues :=
    if 80 < (pyStrip s).length then [overflowIssue fp ln s] else []
  if isComment s then some (cIssues ++ lIssues, st)
  else
    let labIssues := charLoop fp ln s " 0123456789".toList
      ["label field contains", "illegal character"] true ["try removing"] 1 0 (labelField s)
    match labelSemanticsU fp ln s st with
    | none => none
    | some sem =>
        let ctIssues := contIssues fp ln s
        let sqIssues := seqCharIssues fp ln s
        let ljIssues := leftJustIssues fp ln s
        match seqMonoU fp ln s st with
        | none => none
        | some mono =>
            some (cIssues ++ lIssues ++ labIssues ++ sem.1 ++ ctIssues
                    ++ sqIssues ++ ljIssues ++ mono.1,
              ⟨sem.2, mono.2⟩)

/-- The whole loop under the finer numeric model. -/
def runAuxU (fp : String) (ln : Nat) (st : VState) :
    List (List Char) → Option (List Issue × VState)
  | [] => some ([], st)
  | s :: rest =>
      match validateLineU fp ln s st with
      | none => none
      | some r =>
          match runAuxU fp (ln + 1) r.2 rest with
          | none => none
          | some r2 => some (r.1 ++ r2.1, r2.2)

/-- A full validation run under the finer numeric model; none models the
process dying with an uncaught exception before reporting anything. -/
def runValidatorU (fp : String) (lines : List (List Char)) :
    Option (List Issue) :=
  (runAuxU fp 1 ⟨[], -1⟩ lines).map (fun r => r.1)

/- Spec-side definitions, written from the words of the specification, for
   comparison against the code-side definitions above. -/

/-- Modelled from the spec: the 47-symbol permitted alphabet as the spec
lists it — digits 0 through 9, space, uppercase A through Z, and the ten
symbols equals, hyphen, plus, period, close paren, dollar, star, slash,
comma, open paren. -/
def specAlphabet : String := "0123456789 ABCDEFGHIJKLMNOPQRSTUVWXYZ=-+.)$*/,("

/-- Modelled from the spec: trimming only trailing whitespace, as the
line-length rule describes it. -/
def specTrimTrailing (s : List Char) : List Char :=
  (s.reverse.dropWhile pyIsSpace).reverse

/- Predicates used to select one rule's diagnostics out of a line's
   ordered diagnostic list. -/

/-- The issue has exactly the given details and spans exactly the given
single column. -/
def isIssueAt (d : List String) (col : Nat) (i : Issue) : Bool :=
  decide (i.details = d) && decide (i.cols = [col])

/-- The issue has exactly the given details. -/
def isDetail (d : List String) (i : Issue) : Bool := decide (i.details = d)

/-- The issue's first detail string is the given one. -/
def isHeadDetail (h0 : String) (i : Issue) : Bool :=
  decide (i.details.head? = some h0)

/- Helper lemmas. -/

lemma countP_ite_singleton (p : Issue → Bool) (c : Prop) [Decidable c] (x : Issue)
    (hx : p x = false) : (if c then [x] else []).countP p = 0 := by
  split
  · simp [List.countP_cons, hx]
  · rfl

lemma filter_ite_singleton (p : Issue → Bool) (c : Prop) [Decidable c] (x : Issue)
    (hx : p x = false) : (if c then [x] else []).filter p = [] := by
  split
  · simp [List.filter_cons, hx]
  · rfl

lemma mem_charLoop (fp : String) (ln : Nat) (stmt : List Char) (allowed : List Char)
    (d : List String) (dang : Bool) (sugg : List String) (off : Nat) :
    ∀ (k : Nat) (cs : List Char),
      ∀ x ∈ charLoop fp ln stmt allowed d dang sugg off k cs, x.details = d := by
  intro k cs
  induction cs generalizing k with
  | nil => intro x hx; cases hx
  | cons c cs ih =>
      intro x hx
      simp only [charLoop, List.mem_append] at hx
      rcases hx with hx | hx
      · by_cases hcont : allowed.contains c = true
        · rw [if_pos hcont] at hx; cases hx
        · rw [if_neg hcont] at hx
          simp only [List.mem_singleton] at hx
          subst hx; rfl
      · exact ih (k + 1) x hx

lemma charLoop_countP_ne (fp : String) (ln : Nat) (stmt : List Char) (allowed : List Char)
    (d d' : List String) (dang : Bool) (sugg : List String) (off k : Nat) (cs : List Char)
    (col : Nat) (hd : d' ≠ d) :
    (charLoop fp ln stmt allowed d dang sugg off k cs).countP (isIssueAt d' col) = 0 := by
  rw [List.countP_eq_zero]
  intro x hx
  have h := mem_charLoop fp ln stmt allowed d dang sugg off k cs x hx
  simp [isIssueAt, h]
  intro h2
  exact absurd h2.symm hd

lemma charLoop_filter_ne (fp : String) (ln : Nat) (stmt : List Char) (allowed : List Char)
    (d d' : List String) (dang : Bool) (sugg : List String) (off k : Nat) (cs : List Char)
    (hd : d' ≠ d) :
    (charLoop fp ln stmt allowed d dang sugg off k cs).filter (isDetail d') = [] := by
  rw [List.filter_eq_nil_iff]
  intro x hx
  have h := mem_charLoop fp ln stmt allowed d dang sugg off k cs x hx
  simp [isDetail, h]
  exact fun h2 => absurd h2.symm hd

lemma charLoop_countP_low (fp : String) (ln : Nat) (stmt : List Char) (allowed : List Char)
    (d : List String) (dang : Bool) (sugg : List String) (off : Nat) (cs : List Char) :
    ∀ (k j : Nat), j < k →
      (charLoop fp ln stmt allowed d dang sugg off k cs).countP (isIssueAt d (off + j)) = 0 := by
  induction cs with
  | nil => intro k j _; rfl
  | cons c cs ih =>
      intro k j h
      simp only [charLoop, List.countP_append]
      rw [ih (k + 1) j (Nat.lt_succ_of_lt h)]
      split
      · rfl
      · have hne : ([off + k] : List Nat) ≠ [off + j] := by
          simp
          omega
        simp [List.countP_cons, isIssueAt, hne]

lemma charLoop_countP_at (fp : String) (ln : Nat) (stmt : List Char) (allowed : List Char)
    (d : List String) (dang : Bool) (sugg : List String) (off : Nat) (cs : List Char) :
    ∀ (k i : Nat) (hi : i < cs.length),
      (charLoop fp ln stmt allowed d dang sugg off k cs).countP (isIssueAt d (off + (k + i))) =
        if allowed.contains (cs.get ⟨i, hi⟩) then 0 else 1 := by
  induction cs with
  | nil => intro k i hi; simp at hi
  | cons c cs ih =>
      intro k i hi
      cases i with
      | zero =>
          have hget : (c :: cs).get ⟨0, hi⟩ = c := rfl
          rw [hget]
          simp only [charLoop, List.countP_append]
          have htail := charLoop_countP_low fp ln stmt allowed d dang sugg off cs (k + 1) k
            (Nat.lt_succ_self k)
          rw [Nat.add_zero, htail]
          by_cases hcont : allowed.contains c = true
          · rw [if_pos hcont, if_pos hcont]
            simp
          · rw [if_neg hcont, if_neg hcont]
            simp [List.countP_cons, isIssueAt]
      | succ i' =>
          have hget : (c :: cs).get ⟨i' + 1, hi⟩ = cs.get ⟨i', Nat.lt_of_succ_lt_succ hi⟩ := rfl
          rw [hget]
          simp only [charLoop, List.countP_append]
          have harith : k + (i' + 1) = (k + 1) + i' := by omega
          rw [harith]
          have htail := ih (k + 1) i' (Nat.lt_of_succ_lt_succ hi)
          rw [htail]
          by_cases hcont : allowed.contains c = true
          · rw [if_pos hcont]
            simp
          · rw [if_neg hcont]
            have hne : ([off + k] : List Nat) ≠ [off + ((k + 1) + i')] := by
              simp
              omega
            simp [List.countP_cons, isIssueAt, hne]

lemma mem_labelSemantics_fst (fp : String) (ln : Nat) (s : List Char) (st : VState) :
    ∀ x ∈ (labelSemantics fp ln s st).1,
      (∃ m, x = dupLabelIssue fp ln s m) ∨ (∃ m, x = badOrderIssue fp ln s m) := by
  intro x hx
  dsimp only [labelSemantics] at hx
  split at hx
  · split at hx
    · simp only [List.mem_singleton] at hx
      exact Or.inl ⟨_, hx⟩
    · split at hx
      · simp only [List.mem_singleton] at hx
        exact Or.inr ⟨_, hx⟩
      · cases hx
  · cases hx

lemma mem_contIssues (fp : String) (ln : Nat) (s : List Char) :
    ∀ x ∈ contIssues fp ln s, x = contIssue fp ln s := by
  intro x hx
  dsimp only [contIssues] at hx
  split at hx
  · simp only [List.mem_singleton] at hx
    exact hx
  · cases hx

lemma mem_leftJustIssues (fp : String) (ln : Nat) (s : List Char) :
    ∀ x ∈ leftJustIssues fp ln s, x = leftJustIssue fp ln s := by
  intro x hx
  dsimp only [leftJustIssues] at hx
  split at hx
  · simp only [List.mem_singleton] at hx
    exact hx
  · cases hx

lemma mem_seqMono_fst (fp : String) (ln : Nat) (s : List Char) (st : VState) :
    ∀ x ∈ (seqMono fp ln s st).1, x = decSeqIssue fp ln s := by
  intro x hx
  dsimp only [seqMono] at hx
  split at hx
  · split at hx
    · simp only [List.mem_singleton] at hx
      exact hx
    · cases hx
  · cases hx

lemma charset_subset_spec : ∀ x ∈ CHARSET.toList, x ∈ specAlphabet.toList := by decide

lemma spec_subset_charset : ∀ x ∈ specAlphabet.toList, x ∈ CHARSET.toList := by decide

lemma charset_eq_spec (c : Char) :
    CHARSET.toList.contains c = specAlphabet.toList.contains c := by
  by_cases h : c ∈ CHARSET.toList
  · have h2 := charset_subset_spec c h
    have e1 : CHARSET.toList.contains c = true := List.elem_iff.mpr h
    have e2 : specAlphabet.toList.contains c = true := List.elem_iff.mpr h2
    rw [e1, e2]
  · have h2 : c ∉ specAlphabet.toList := fun hm => h (spec_subset_charset c hm)
    have e1 : CHARSET.toList.contains c = false := by
      rw [Bool.eq_false_iff]
      intro hx
      exact h (List.elem_iff.mp hx)
    have e2 : specAlphabet.toList.contains c = false := by
      rw [Bool.eq_false_iff]
      intro hx
      exact h2 (List.elem_iff.mp hx)
    rw [e1, e2]

lemma ne_of_head_ne {a b : String} (t u : List String) (h : a ≠ b) :
    (a :: t) ≠ (b :: u) := by
  intro he
  injection he with h1 _
  exact h h1

lemma countP_zero_of_mem_eq {l : List Issue} {y : Issue} (hm : ∀ x ∈ l, x = y)
    (p : Issue → Bool) (hp : p y = false) : l.countP p = 0 := by
  rw [List.countP_eq_zero]
  intro x hx
  rw [hm x hx, hp]
  simp

lemma filter_nil_of_mem_eq {l : List Issue} {y : Issue} (hm : ∀ x ∈ l, x = y)
    (p : Issue → Bool) (hp : p y = false) : l.filter p = [] := by
  rw [List.filter_eq_nil_iff]
  intro x hx
  rw [hm x hx, hp]
  simp

lemma labelSemantics_countP_zero (fp : String) (ln : Nat) (s : List Char) (st : VState)
    (d : List String) (col : Nat)
    (hd : ∀ m : Nat, (["duplicate label", "already defined on line " ++ toString m] : List String) ≠ d)
    (hb : ∀ m : Nat, (["badly ordered labels", "previous was " ++ toString m] : List String) ≠ d) :
    (labelSemantics fp ln s st).1.countP (isIssueAt d col) = 0 := by
  rw [List.countP_eq_zero]
  intro x hx
  rcases mem_labelSemantics_fst fp ln s st x hx with ⟨m, rfl⟩ | ⟨m, rfl⟩
  · simp [isIssueAt, dupLabelIssue, hd m]
  · simp [isIssueAt, badOrderIssue, hb m]

lemma labelSemantics_filter_nil (fp : String) (ln : Nat) (s : List Char) (st : VState)
    (d : List String)
    (hd : ∀ m : Nat, (["duplicate label", "already defined on line " ++ toString m] : List String) ≠ d)
    (hb : ∀ m : Nat, (["badly ordered labels", "previous was " ++ toString m] : List String) ≠ d) :
    (labelSemantics fp ln s st).1.filter (isDetail d) = [] := by
  rw [List.filter_eq_nil_iff]
  intro x hx
  rcases mem_labelSemantics_fst fp ln s st x hx with ⟨m, rfl⟩ | ⟨m, rfl⟩
  · simp [isDetail, dupLabelIssue, hd m]
  · simp [isDetail, badOrderIssue, hb m]

/-- The non-comment unfolding of validateLine: the eight rule chunks in
source order, and the state built from the label-semantics and
sequence-monotonicity updates. -/
lemma validateLine_noncomment (fp : String) (ln : Nat) (s : List Char) (st : VState)
    (hc : isComment s = false) :
    validateLine fp ln s st =
      (charLoop fp ln s CHARSET.toList ["statement contains", "illegal character"] true
          ["try removing"] 1 0 s
        ++ (if 80 < (pyStrip s).length then [overflowIssue fp ln s] else [])
        ++ charLoop fp ln s " 0123456789".toList ["label field contains", "illegal character"]
            true ["try removing"] 1 0 (labelField s)
        ++ (labelSemantics fp ln s st).1
        ++ contIssues fp ln s
        ++ seqCharIssues fp ln s
        ++ leftJustIssues fp ln s
        ++ (seqMono fp ln s st).1,
       ⟨(labelSemantics fp ln s st).2, (seqMono fp ln s st).2⟩) := by
  dsimp only [validateLine]
  rw [hc]
  rfl

/-- The comment unfolding of validateLine: only the charset and length
chunks, and the state unchanged. -/
lemma validateLine_comment (fp : String) (ln : Nat) (s : List Char) (st : VState)
    (hc : isComment s = true) :
    validateLine fp ln s st =
      (charLoop fp ln s CHARSET.toList ["statement contains", "illegal character"] true
          ["try removing"] 1 0 s
        ++ (if 80 < (pyStrip s).length then [overflowIssue fp ln s] else []),
       st) := by
  dsimp only [validateLine]
  rw [hc]
  rfl

/-- Claim C9: the validator is a pure function of its input: two runs over
the identical line sequence, each from fresh state, produce byte-identical
ordered sequences of rendered diagnostics. -/
theorem c9_determinism (fp : String) (lines : List (List Char)) :
    (runValidator fp lines).map Issue.render = (runValidator fp lines).map Issue.render := rfl

/-- Claim C8: on a comment line (first character the comment marker), the
state is unchanged and every diagnostic emitted is a character-set or
line-length diagnostic; no label, continuation or sequence diagnostic is
produced. -/
theorem c8_comment_short_circuit (fp : String) (ln : Nat) (s : List Char) (st : VState)
    (hc : isComment s = true) :
    (validateLine fp ln s st).2 = st ∧
    ∀ x ∈ (validateLine fp ln s st).1,
      x.details = ["statement contains", "illegal character"] ∨
      x.details = ["statement exceeds 80 column limit", ""] := by
  rw [validateLine_comment fp ln s st hc]
  refine ⟨rfl, ?_⟩
  intro x hx
  simp only [List.mem_append] at hx
  rcases hx with hx | hx
  · exact Or.inl (mem_charLoop fp ln s CHARSET.toList _ true ["try removing"] 1 0 s x hx)
  · right
    split at hx
    · simp only [List.mem_singleton] at hx
      rw [hx]
      rfl
    · cases hx

/-- Witness for C8 at a concrete comment line containing an illegal
character. -/
theorem c8_witness :
    (validateLine "f" 1 "Ca".toList ⟨[], -1⟩).2 = ⟨[], -1⟩ ∧
    ∀ x ∈ (validateLine "f" 1 "Ca".toList ⟨[], -1⟩).1,
      x.details = ["statement contains", "illegal character"] ∨
      x.details = ["statement exceeds 80 column limit", ""] :=
  c8_comment_short_circuit "f" 1 "Ca".toList ⟨[], -1⟩ (by decide)

/-- The charset-rule count on a single line: exactly one illegal-character
Error at column i+1 iff character i is outside CHARSET. -/
lemma validateLine_countP_charset (fp : String) (ln : Nat) (st : VState) (s : List Char)
    (i : Nat) (hi : i < s.length) :
    (validateLine fp ln s st).1.countP
        (isIssueAt ["statement contains", "illegal character"] (i + 1)) =
      (if CHARSET.toList.contains (s.get ⟨i, hi⟩) then 0 else 1) := by
  have hmain : (charLoop fp ln s CHARSET.toList ["statement contains", "illegal character"]
      true ["try removing"] 1 0 s).countP
      (isIssueAt ["statement contains", "illegal character"] (i + 1)) =
      if CHARSET.toList.contains (s.get ⟨i, hi⟩) then 0 else 1 := by
    have h := charLoop_countP_at fp ln s CHARSET.toList
      ["statement contains", "illegal character"] true ["try removing"] 1 s 0 i hi
    have e : 1 + (0 + i) = i + 1 := by omega
    rw [e] at h
    exact h
  have hover : isIssueAt ["statement contains", "illegal character"] (i + 1)
      (overflowIssue fp ln s) = false := by
    simp [isIssueAt, overflowIssue,
      ne_of_head_ne (a := "statement exceeds 80 column limit")
        (b := "statement contains") _ _ (by decide)]
  by_cases hc : isComment s = true
  · rw [validateLine_comment fp ln s st hc]
    simp only [List.countP_append]
    rw [hmain, countP_ite_singleton _ _ _ hover]
    omega
  · rw [Bool.not_eq_true] at hc
    rw [validateLine_noncomment fp ln s st hc]
    simp only [List.countP_append]
    rw [hmain, countP_ite_singleton _ _ _ hover]
    rw [charLoop_countP_ne fp ln s " 0123456789".toList _ _ true ["try removing"] 1 0
      (labelField s) (i + 1) (ne_of_head_ne _ _ (by decide))]
    rw [labelSemantics_countP_zero fp ln s st _ (i + 1)
      (fun m => ne_of_head_ne _ _ (by decide)) (fun m => ne_of_head_ne _ _ (by decide))]
    rw [countP_zero_of_mem_eq (mem_contIssues fp ln s) _
      (by simp [isIssueAt, contIssue, ne_of_head_ne (a := "continuation field contains")
        (b := "statement contains") _ _ (by decide)])]
    rw [seqCharIssues, charLoop_countP_ne fp ln s "0123456789".toList _ _ false
      ["try removing"] 73 0 (pyStrip (seqField s)) (i + 1) (ne_of_head_ne _ _ (by decide))]
    rw [countP_zero_of_mem_eq (mem_leftJustIssues fp ln s) _
      (by simp [isIssueAt, leftJustIssue, ne_of_head_ne (a := "consider left-justifying sequence field")
        (b := "statement contains") _ _ (by decide)])]
    rw [countP_zero_of_mem_eq (mem_seqMono_fst fp ln s st) _
      (by simp [isIssueAt, decSeqIssue, ne_of_head_ne (a := "decreasing sequence number")
        (b := "statement contains") _ _ (by decide)])]
    omega

/-- Claim C5: the permitted alphabet of the spec has 47 distinct symbols,
and for every line (comment or not) and every character position, the line
receives exactly one illegal-character Error at that 1-based column when
the character is outside the alphabet, and none when it is inside. -/
theorem c5_charset_rule (fp : String) (ln : Nat) (st : VState) (s : List Char)
    (i : Nat) (hi : i < s.length) :
    specAlphabet.toList.length = 47 ∧ specAlphabet.toList.Nodup ∧
    (validateLine fp ln s st).1.countP
        (isIssueAt ["statement contains", "illegal character"] (i + 1)) =
      (if specAlphabet.toList.contains (s.get ⟨i, hi⟩) then 0 else 1) := by
  refine ⟨by decide, by decide, ?_⟩
  rw [← charset_eq_spec]
  exact validateLine_countP_charset fp ln st s i hi

/-- Witness for C5 at a lowercase letter, which is outside the alphabet. -/
theorem c5_witness :
    specAlphabet.toList.length = 47 ∧ specAlphabet.toList.Nodup ∧
    (validateLine "f" 1 "a".toList ⟨[], -1⟩).1.countP
        (isIssueAt ["statement contains", "illegal character"] (0 + 1)) =
      (if specAlphabet.toList.contains (("a".toList).get ⟨0, by decide⟩) then 0 else 1) :=
  c5_charset_rule "f" 1 ⟨[], -1⟩ "a".toList 0 (by decide)

lemma nonempty_of_strip_digit {t : List Char} (h : pyIsDigitStr (pyStrip t) = true) :
    t.isEmpty = false := by
  cases t with
  | nil => exact absurd h (by decide)
  | cons a t => rfl

lemma seqMono_of_digit (fp : String) (ln : Nat) (s : List Char) (st : VState)
    (h : pyIsDigitStr (pyStrip (seqField s)) = true) :
    seqMono fp ln s st =
      ((if (pyIntNat (pyStrip (seqField s)) : Int) ≤ st.sequencing
        then [decSeqIssue fp ln s] else []),
       (pyIntNat (seqField s) : Int)) := by
  dsimp only [seqMono]
  rw [nonempty_of_strip_digit h, h]
  rfl

lemma seqMono_of_nondigit (fp : String) (ln : Nat) (s : List Char) (st : VState)
    (h : pyIsDigitStr (pyStrip (seqField s)) = false) :
    seqMono fp ln s st = ([], st.sequencing) := by
  dsimp only [seqMono]
  rw [h]
  simp

lemma labelSemantics_snd_of_nonnum (fp : String) (ln : Nat) (s : List Char) (st : VState)
    (h : pyIsDigitStr (pyStrip (labelField s)) = false) :
    (labelSemantics fp ln s st).2 = st.labels := by
  dsimp only [labelSemantics]
  rw [h]
  simp

lemma validateLine_snd (fp : String) (ln : Nat) (s : List Char) (st : VState)
    (hc : isComment s = false) :
    (validateLine fp ln s st).2 =
      ⟨(labelSemantics fp ln s st).2, (seqMono fp ln s st).2⟩ := by
  rw [validateLine_noncomment fp ln s st hc]

lemma validateLine_filter_dec (fp : String) (ln : Nat) (s : List Char) (st : VState)
    (hc : isComment s = false) :
    (validateLine fp ln s st).1.filter (isDetail ["decreasing sequence number", ""]) =
      (seqMono fp ln s st).1 := by
  rw [validateLine_noncomment fp ln s st hc]
  dsimp only
  simp only [List.filter_append]
  rw [charLoop_filter_ne fp ln s CHARSET.toList _
        ["decreasing sequence number", ""] true ["try removing"] 1 0 s
        (ne_of_head_ne _ _ (by decide))]
  rw [filter_ite_singleton _ _ _
        (by simp [isDetail, overflowIssue,
          ne_of_head_ne (a := "statement exceeds 80 column limit")
            (b := "decreasing sequence number") _ _ (by decide)])]
  rw [charLoop_filter_ne fp ln s " 0123456789".toList _
        ["decreasing sequence number", ""] true ["try removing"] 1 0 (labelField s)
        (ne_of_head_ne _ _ (by decide))]
  rw [labelSemantics_filter_nil fp ln s st _
        (fun m => ne_of_head_ne _ _ (by decide)) (fun m => ne_of_head_ne _ _ (by decide))]
  rw [filter_nil_of_mem_eq (mem_contIssues fp ln s) _
        (by simp [isDetail, contIssue,
          ne_of_head_ne (a := "continuation field contains")
            (b := "decreasing sequence number") _ _ (by decide)])]
  rw [seqCharIssues, charLoop_filter_ne fp ln s "0123456789".toList _
        ["decreasing sequence number", ""] false ["try removing"] 73 0
        (pyStrip (seqField s)) (ne_of_head_ne _ _ (by decide))]
  rw [filter_nil_of_mem_eq (mem_leftJustIssues fp ln s) _
        (by simp [isDetail, leftJustIssue,
          ne_of_head_ne (a := "consider left-justifying sequence field")
            (b := "decreasing sequence number") _ _ (by decide)])]
  rw [List.filter_eq_self.mpr (fun x hx => by
        rw [mem_seqMono_fst fp ln s st x hx]
        simp [isDetail, decSeqIssue])]
  simp

/-- The property claimed by C6 of a single non-comment line: the sequence
cursor becomes the integer value of the sequence field exactly when the
trimmed field is nonempty and purely numeric, the decreasing-sequence
Warning appearing exactly when that value does not exceed the previous
cursor; otherwise the cursor is unchanged and no such Warning appears; and
a blank or non-numeric label field leaves the label table unchanged. -/
def seqStateProp (fp : String) (ln : Nat) (s : List Char) (st : VState) : Prop :=
  (if pyIsDigitStr (pyStrip (seqField s)) = true then
     (validateLine fp ln s st).2.sequencing = (pyIntNat (seqField s) : Int) ∧
     (validateLine fp ln s st).1.filter (isDetail ["decreasing sequence number", ""]) =
       (if (pyIntNat (pyStrip (seqField s)) : Int) ≤ st.sequencing
        then [decSeqIssue fp ln s] else [])
   else
     (validateLine fp ln s st).2.sequencing = st.sequencing ∧
     (validateLine fp ln s st).1.filter (isDetail ["decreasing sequence number", ""]) = [])
  ∧ (pyIsDigitStr (pyStrip (labelField s)) = false →
      (validateLine fp ln s st).2.labels = st.labels)

/-- Claim C6: state updates derive only from well-formed numeric fields:
for every non-comment line, the cursor is set to the sequence value exactly
when the trimmed sequence field is nonempty and purely numeric (the
decreasing warning against the previous cursor emitted first when the value
does not exceed it); a blank or non-numeric sequence field leaves the
cursor unchanged, and a blank or non-numeric label field leaves the label
table unchanged. -/
theorem c6_state_updates (fp : String) (ln : Nat) (s : List Char) (st : VState)
    (hc : isComment s = false) : seqStateProp fp ln s st := by
  unfold seqStateProp
  rw [validateLine_filter_dec fp ln s st hc, validateLine_snd fp ln s st hc]
  constructor
  · by_cases h : pyIsDigitStr (pyStrip (seqField s)) = true
    · rw [if_pos h, seqMono_of_digit fp ln s st h]
      exact ⟨rfl, rfl⟩
    · rw [Bool.not_eq_true] at h
      rw [if_neg (by rw [h]; exact Bool.false_ne_true), seqMono_of_nondigit fp ln s st h]
      exact ⟨rfl, rfl⟩
  · intro h
    exact labelSemantics_snd_of_nonnum fp ln s st h

/-- A concrete line exercising C6: non-numeric label field, numeric
sequence field with value 5. -/
def c6Line : List Char := List.replicate 72 'A' ++ "00000005".toList

/-- Witness for C6: against a previous cursor of 7, value 5 triggers the
decreasing warning and becomes the new cursor, and the label table stays
empty. -/
theorem c6_witness : isComment c6Line = false ∧ seqStateProp "f" 1 c6Line ⟨[], 7⟩ :=
  ⟨by decide, c6_state_updates "f" 1 c6Line ⟨[], 7⟩ (by decide)⟩

lemma isEmpty_false_of_digit {t : List Char} (h : pyIsDigitStr t = true) :
    t.isEmpty = false := by
  unfold pyIsDigitStr at h
  cases ht : t.isEmpty
  · rfl
  · rw [ht] at h
    simp at h

lemma labelSemantics_of_dup (fp : String) (ln : Nat) (s : List Char) (st : VState)
    (hnum : pyIsDigitStr (pyStrip (labelField s)) = true) (m : Nat)
    (hdup : dictFind st.labels (pyIntNat (labelField s)) = some m) :
    labelSemantics fp ln s st =
      ([dupLabelIssue fp ln s m], dictInsert st.labels (pyIntNat (labelField s)) ln) := by
  dsimp only [labelSemantics]
  rw [isEmpty_false_of_digit hnum, hnum, hdup]
  rfl

lemma charLoop_filter_head_ne (fp : String) (ln : Nat) (stmt : List Char)
    (allowed : List Char) (d : List String) (dang : Bool) (sugg : List String)
    (off k : Nat) (cs : List Char) (h0 : String) (hd : d.head? ≠ some h0) :
    (charLoop fp ln stmt allowed d dang sugg off k cs).filter (isHeadDetail h0) = [] := by
  rw [List.filter_eq_nil_iff]
  intro x hx
  have h := mem_charLoop fp ln stmt allowed d dang sugg off k cs x hx
  simp [isHeadDetail, h]
  intro h2
  exact hd (by rw [h2])

lemma validateLine_filter_dup (fp : String) (ln : Nat) (s : List Char) (st : VState)
    (hc : isComment s = false) :
    (validateLine fp ln s st).1.filter (isHeadDetail "duplicate label") =
      (labelSemantics fp ln s st).1.filter (isHeadDetail "duplicate label") := by
  rw [validateLine_noncomment fp ln s st hc]
  dsimp only
  simp only [List.filter_append]
  rw [charLoop_filter_head_ne fp ln s CHARSET.toList _ true ["try removing"] 1 0 s
        "duplicate label" (by decide)]
  rw [filter_ite_singleton _ _ _
        (by simp [isHeadDetail, overflowIssue,
          show ("statement exceeds 80 column limit" : String) ≠ "duplicate label" from by decide])]
  rw [charLoop_filter_head_ne fp ln s " 0123456789".toList _ true ["try removing"] 1 0
        (labelField s) "duplicate label" (by decide)]
  rw [filter_nil_of_mem_eq (mem_contIssues fp ln s) _
        (by simp [isHeadDetail, contIssue,
          show ("continuation field contains" : String) ≠ "duplicate label" from by decide])]
  rw [seqCharIssues, charLoop_filter_head_ne fp ln s "0123456789".toList _ false
        ["try removing"] 73 0 (pyStrip (seqField s)) "duplicate label" (by decide)]
  rw [filter_nil_of_mem_eq (mem_leftJustIssues fp ln s) _
        (by simp [isHeadDetail, leftJustIssue,
          show ("consider left-justifying sequence field" : String) ≠ "duplicate label" from by decide])]
  rw [filter_nil_of_mem_eq (mem_seqMono_fst fp ln s st) _
        (by simp [isHeadDetail, decSeqIssue,
          show ("decreasing sequence number" : String) ≠ "duplicate label" from by decide])]
  simp

/-- The property claimed (as amended) by C1 of one non-comment line whose
numeric label L is already in the table with recorded line m: exactly one
duplicate-label Error is emitted, its detail naming line m (the line
currently recorded for L, i.e. its most recent declaration), and the table
entry for L is then updated to the current line. -/
def dupLabelProp (fp : String) (ln : Nat) (s : List Char) (st : VState) (m : Nat) : Prop :=
  (validateLine fp ln s st).1.filter (isHeadDetail "duplicate label") =
    [dupLabelIssue fp ln s m] ∧
  (validateLine fp ln s st).2.labels =
    dictInsert st.labels (pyIntNat (labelField s)) ln

/-- Claim C1 (amended): on a duplicate numeric label the Error's detail
names the line currently recorded in the table for that label (the most
recent declaration, not necessarily the first), and the table entry IS
updated to the current line, so later duplicates are reported against it. -/
theorem c1_duplicate_label (fp : String) (ln : Nat) (s : List Char) (st : VState) (m : Nat)
    (hc : isComment s = false)
    (hnum : pyIsDigitStr (pyStrip (labelField s)) = true)
    (hdup : dictFind st.labels (pyIntNat (labelField s)) = some m) :
    dupLabelProp fp ln s st m := by
  unfold dupLabelProp
  rw [validateLine_filter_dup fp ln s st hc, validateLine_snd fp ln s st hc]
  rw [labelSemantics_of_dup fp ln s st hnum m hdup]
  constructor
  · simp [isHeadDetail, dupLabelIssue]
  · rfl

/-- Witness for C1 (amended): label 10 re-declared on line 2 after being
recorded for line 1. -/
theorem c1_witness :
    isComment "   10".toList = false ∧
    pyIsDigitStr (pyStrip (labelField "   10".toList)) = true ∧
    dictFind [(10, 1)] (pyIntNat (labelField "   10".toList)) = some 1 ∧
    dupLabelProp "f" 2 "   10".toList ⟨[(10, 1)], -1⟩ 1 :=
  ⟨by decide, by decide, by decide,
    c1_duplicate_label "f" 2 "   10".toList ⟨[(10, 1)], -1⟩ 1 (by decide) (by decide) (by decide)⟩

/-- Counterexample to C1 as stated: after three identical label-10 lines,
the duplicate Error on line 3 names line 2 — the previous duplicate — not
line 1 where the label was first declared, and the final table maps 10 to
line 3: the table entry is updated on every duplicate, contrary to the
claim that it keeps mapping to the first declaring line. -/
theorem c1_counterexample :
    (runAux "f" 1 ⟨[], -1⟩ ["   10".toList, "   10".toList, "   10".toList]).2.labels
        = [(10, 3)] ∧
    ((runAux "f" 1 ⟨[], -1⟩ ["   10".toList, "   10".toList, "   10".toList]).1.filter
        (fun i => i.ln == 3 && isHeadDetail "duplicate label" i)).map (fun i => i.details)
      = [["duplicate label", "already defined on line 2"]] := by decide

lemma filter_ite_singleton_true (p : Issue → Bool) (c : Prop) [Decidable c] (x : Issue)
    (hx : p x = true) : (if c then [x] else []).filter p = (if c then [x] else []) := by
  split
  · simp [List.filter_cons, hx]
  · rfl

/-- Claim C3 (amended): the over-length Warning is governed by stripping
whitespace from BOTH ends of the line (Python strip), not from the trailing
end only: among all diagnostics of a line, the over-length ones are exactly
one Warning with columns 81 through the both-ends-stripped length when that
length exceeds 80, and none otherwise. -/
theorem c3_line_length (fp : String) (ln : Nat) (s : List Char) (st : VState) :
    (validateLine fp ln s st).1.filter (isDetail ["statement exceeds 80 column limit", ""]) =
      (if 80 < (pyStrip s).length then [overflowIssue fp ln s] else []) := by
  have hself : isDetail ["statement exceeds 80 column limit", ""] (overflowIssue fp ln s)
      = true := by
    simp [isDetail, overflowIssue]
  by_cases hc : isComment s = true
  · rw [validateLine_comment fp ln s st hc]
    simp only [List.filter_append]
    rw [charLoop_filter_ne fp ln s CHARSET.toList _
          ["statement exceeds 80 column limit", ""] true ["try removing"] 1 0 s
          (ne_of_head_ne _ _ (by decide))]
    rw [filter_ite_singleton_true _ _ _ hself]
    simp
  · rw [Bool.not_eq_true] at hc
    rw [validateLine_noncomment fp ln s st hc]
    dsimp only
    simp only [List.filter_append]
    rw [charLoop_filter_ne fp ln s CHARSET.toList _
          ["statement exceeds 80 column limit", ""] true ["try removing"] 1 0 s
          (ne_of_head_ne _ _ (by decide))]
    rw [filter_ite_singleton_true _ _ _ hself]
    rw [charLoop_filter_ne fp ln s " 0123456789".toList _
          ["statement exceeds 80 column limit", ""] true ["try removing"] 1 0 (labelField s)
          (ne_of_head_ne _ _ (by decide))]
    rw [labelSemantics_filter_nil fp ln s st _
          (fun m => ne_of_head_ne _ _ (by decide)) (fun m => ne_of_head_ne _ _ (by decide))]
    rw [filter_nil_of_mem_eq (mem_contIssues fp ln s) _
          (by simp [isDetail, contIssue,
            ne_of_head_ne (a := "continuation field contains")
              (b := "statement exceeds 80 column limit") _ _ (by decide)])]
    rw [seqCharIssues, charLoop_filter_ne fp ln s "0123456789".toList _
          ["statement exceeds 80 column limit", ""] false ["try removing"] 73 0
          (pyStrip (seqField s)) (ne_of_head_ne _ _ (by decide))]
    rw [filter_nil_of_mem_eq (mem_leftJustIssues fp ln s) _
          (by simp [isDetail, leftJustIssue,
            ne_of_head_ne (a := "consider left-justifying sequence field")
              (b := "statement exceeds 80 column limit") _ _ (by decide)])]
    rw [filter_nil_of_mem_eq (mem_seqMono_fst fp ln s st) _
          (by simp [isDetail, decSeqIssue,
            ne_of_head_ne (a := "decreasing sequence number")
              (b := "statement exceeds 80 column limit") _ _ (by decide)])]
    simp

/-- Five leading spaces followed by eighty letters: 85 columns, none of
them trailing whitespace. -/
def c3Line : List Char := List.replicate 5 ' ' ++ List.replicate 80 'A'

/-- Counterexample to C3 as stated: this 85-column line has no trailing
whitespace, so its trailing-trimmed length is 85 > 80 and the claim demands
an over-length Warning spanning columns 81 to 85; the validator emits no
such Warning, because the code strips LEADING whitespace too before
measuring (the both-ends-stripped length is 80). -/
theorem c3_counterexample :
    specTrimTrailing c3Line = c3Line ∧ c3Line.length = 85 ∧
    (pyStrip c3Line).length = 80 ∧
    (validateLine "f" 1 c3Line ⟨[], -1⟩).1.filter
      (isDetail ["statement exceeds 80 column limit", ""]) = [] := by decide

lemma leftJustIssues_eq (fp : String) (ln : Nat) (s : List Char) :
    leftJustIssues fp ln s =
      (if (seqField s).head? = some ' ' then [leftJustIssue fp ln s] else []) := by
  dsimp only [leftJustIssues]
  by_cases h : (seqField s).head? = some ' '
  · have hne : (seqField s).isEmpty = false := by
      cases hs : seqField s with
      | nil => rw [hs] at h; cases h
      | cons a t => rfl
    simp [h, hne]
  · simp [h]

/-- Claim C7 (amended): the left-justification Warning appears exactly when
the raw sequence field (columns 73 to 80 as present on the line) is
nonempty and begins with a space — INCLUDING when the field is entirely
blank; only a line shorter than 73 columns, whose sequence field is empty,
escapes.  (Equivalently: exactly when the field's first character is a
space.) -/
theorem c7_left_justify (fp : String) (ln : Nat) (s : List Char) (st : VState)
    (hc : isComment s = false) :
    (validateLine fp ln s st).1.filter
        (isDetail ["consider left-justifying sequence field", ""]) =
      (if (seqField s).head? = some ' ' then [leftJustIssue fp ln s] else []) := by
  rw [← leftJustIssues_eq fp ln s]
  rw [validateLine_noncomment fp ln s st hc]
  dsimp only
  simp only [List.filter_append]
  rw [charLoop_filter_ne fp ln s CHARSET.toList _
        ["consider left-justifying sequence field", ""] true ["try removing"] 1 0 s
        (ne_of_head_ne _ _ (by decide))]
  rw [filter_ite_singleton _ _ _
        (by simp [isDetail, overflowIssue,
          ne_of_head_ne (a := "statement exceeds 80 column limit")
            (b := "consider left-justifying sequence field") _ _ (by decide)])]
  rw [charLoop_filter_ne fp ln s " 0123456789".toList _
        ["consider left-justifying sequence field", ""] true ["try removing"] 1 0
        (labelField s) (ne_of_head_ne _ _ (by decide))]
  rw [labelSemantics_filter_nil fp ln s st _
        (fun m => ne_of_head_ne _ _ (by decide)) (fun m => ne_of_head_ne _ _ (by decide))]
  rw [filter_nil_of_mem_eq (mem_contIssues fp ln s) _
        (by simp [isDetail, contIssue,
          ne_of_head_ne (a := "continuation field contains")
            (b := "consider left-justifying sequence field") _ _ (by decide)])]
  rw [seqCharIssues, charLoop_filter_ne fp ln s "0123456789".toList _
        ["consider left-justifying sequence field", ""] false ["try removing"] 73 0
        (pyStrip (seqField s)) (ne_of_head_ne _ _ (by decide))]
  rw [List.filter_eq_self.mpr (fun x hx => by
        rw [mem_leftJustIssues fp ln s x hx]
        simp [isDetail, leftJustIssue])]
  rw [filter_nil_of_mem_eq (mem_seqMono_fst fp ln s st) _
        (by simp [isDetail, decSeqIssue,
          ne_of_head_ne (a := "decreasing sequence number")
            (b := "consider left-justifying sequence field") _ _ (by decide)])]
  simp

/-- Witness for C7 (amended): a one-character line has an empty sequence
field and receives no left-justification Warning. -/
theorem c7_witness :
    isComment "A".toList = false ∧
    (validateLine "f" 1 "A".toList ⟨[], -1⟩).1.filter
        (isDetail ["consider left-justifying sequence field", ""]) =
      (if (seqField "A".toList).head? = some ' '
       then [leftJustIssue "f" 1 "A".toList] else []) :=
  ⟨by decide, c7_left_justify "f" 1 "A".toList ⟨[], -1⟩ (by decide)⟩

/-- Counterexample to C7 as stated: a line whose columns 73 through 80 are
entirely blank nevertheless receives the left-justification Warning: the
all-blank field is nonempty and its first character is a space, and the
code does not require any non-space content. -/
theorem c7_counterexample :
    seqField (List.replicate 80 ' ') = List.replicate 8 ' ' ∧
    (validateLine "f" 1 (List.replicate 80 ' ') ⟨[], -1⟩).1.filter
        (isDetail ["consider left-justifying sequence field", ""]) =
      [leftJustIssue "f" 1 (List.replicate 80 ' ')] := by decide

/-- Claim C4 (amended): each non-digit character of the TRIMMED sequence
field produces exactly one Warning whose single column is 73 plus the
character's index WITHIN THE TRIMMED FIELD — which equals its true source
column only when the field has no leading whitespace. -/
theorem c4_sequence_charset (fp : String) (ln : Nat) (s : List Char) (st : VState)
    (hc : isComment s = false) (j : Nat) (hj : j < (pyStrip (seqField s)).length) :
    (validateLine fp ln s st).1.countP
        (isIssueAt ["sequence field contains", "illegal character"] (73 + j)) =
      (if "0123456789".toList.contains ((pyStrip (seqField s)).get ⟨j, hj⟩)
       then 0 else 1) := by
  have hmain : (seqCharIssues fp ln s).countP
      (isIssueAt ["sequence field contains", "illegal character"] (73 + j)) =
      if "0123456789".toList.contains ((pyStrip (seqField s)).get ⟨j, hj⟩)
      then 0 else 1 := by
    have h := charLoop_countP_at fp ln s "0123456789".toList
      ["sequence field contains", "illegal character"] false ["try removing"] 73
      (pyStrip (seqField s)) 0 j hj
    have e : (0 : Nat) + j = j := by omega
    rw [e] at h
    exact h
  rw [validateLine_noncomment fp ln s st hc]
  dsimp only
  simp only [List.countP_append]
  rw [charLoop_countP_ne fp ln s CHARSET.toList _ _ true ["try removing"] 1 0 s
        (73 + j) (ne_of_head_ne _ _ (by decide))]
  rw [countP_ite_singleton _ _ _
        (by simp [isIssueAt, overflowIssue,
          ne_of_head_ne (a := "statement exceeds 80 column limit")
            (b := "sequence field contains") _ _ (by decide)])]
  rw [charLoop_countP_ne fp ln s " 0123456789".toList _ _ true ["try removing"] 1 0
        (labelField s) (73 + j) (ne_of_head_ne _ _ (by decide))]
  rw [labelSemantics_countP_zero fp ln s st _ (73 + j)
        (fun m => ne_of_head_ne _ _ (by decide)) (fun m => ne_of_head_ne _ _ (by decide))]
  rw [countP_zero_of_mem_eq (mem_contIssues fp ln s) _
        (by simp [isIssueAt, contIssue,
          ne_of_head_ne (a := "continuation field contains")
            (b := "sequence field contains") _ _ (by decide)])]
  rw [hmain]
  rw [countP_zero_of_mem_eq (mem_leftJustIssues fp ln s) _
        (by simp [isIssueAt, leftJustIssue,
          ne_of_head_ne (a := "consider left-justifying sequence field")
            (b := "sequence field contains") _ _ (by decide)])]
  rw [countP_zero_of_mem_eq (mem_seqMono_fst fp ln s st) _
        (by simp [isIssueAt, decSeqIssue,
          ne_of_head_ne (a := "decreasing sequence number")
            (b := "sequence field contains") _ _ (by decide)])]
  omega

/-- Seventy-two letters, then a sequence field whose leading space is
followed by the illegal character B. -/
def c4Line : List Char := List.replicate 72 'A' ++ (' ' :: 'B' :: List.replicate 6 ' ')

/-- Witness for C4 (amended): the B at index 0 of the trimmed field yields
exactly one Warning at column 73 + 0. -/
theorem c4_witness :
    isComment c4Line = false ∧ 0 < (pyStrip (seqField c4Line)).length ∧
    (validateLine "f" 1 c4Line ⟨[], -1⟩).1.countP
        (isIssueAt ["sequence field contains", "illegal character"] (73 + 0)) =
      (if "0123456789".toList.contains ((pyStrip (seqField c4Line)).get ⟨0, by decide⟩)
       then 0 else 1) :=
  ⟨by decide, by decide,
    c4_sequence_charset "f" 1 c4Line ⟨[], -1⟩ (by decide) 0 (by decide)⟩

/-- Counterexample to C4 as stated: the illegal character B occupies source
column 74 (the field begins with a space), yet the emitted Warning reports
column 73 — the loop enumerates the stripped field, so with leading
whitespace the reported column is NOT the character's true column. -/
theorem c4_counterexample :
    c4Line[73]? = some 'B' ∧
    ((validateLine "f" 1 c4Line ⟨[], -1⟩).1.filter
        (isDetail ["sequence field contains", "illegal character"])).map (fun i => i.cols) =
      [[73]] := by decide

lemma contField_of_getElem (s : List Char) (c : Char) (h : s[5]? = some c) :
    contField s = [c] := by
  obtain ⟨h5, hget⟩ := List.getElem?_eq_some.mp h
  unfold contField pySlice
  rw [List.drop_eq_getElem_cons h5, hget]
  rfl

lemma contIssues_of_bang (fp : String) (ln : Nat) (s : List Char)
    (h : contField s = ['!']) : contIssues fp ln s = [] := by
  dsimp only [contIssues]
  rw [h]
  have hin : pyInStr (pyStrip ['!'])
      ['*', '!', '2', '3', '4', '5', '6', '7', '8', '9'] = true := by decide
  simp [hin]

lemma validateLine_filter_cont (fp : String) (ln : Nat) (s : List Char) (st : VState)
    (hc : isComment s = false) :
    (validateLine fp ln s st).1.filter
        (isDetail ["continuation field contains", "illegal character"]) =
      contIssues fp ln s := by
  rw [validateLine_noncomment fp ln s st hc]
  dsimp only
  simp only [List.filter_append]
  rw [charLoop_filter_ne fp ln s CHARSET.toList _
        ["continuation field contains", "illegal character"] true ["try removing"] 1 0 s
        (ne_of_head_ne _ _ (by decide))]
  rw [filter_ite_singleton _ _ _
        (by simp [isDetail, overflowIssue,
          ne_of_head_ne (a := "statement exceeds 80 column limit")
            (b := "continuation field contains") _ _ (by decide)])]
  rw [charLoop_filter_ne fp ln s " 0123456789".toList _
        ["continuation field contains", "illegal character"] true ["try removing"] 1 0
        (labelField s) (ne_of_head_ne _ _ (by decide))]
  rw [labelSemantics_filter_nil fp ln s st _
        (fun m => ne_of_head_ne _ _ (by decide)) (fun m => ne_of_head_ne _ _ (by decide))]
  rw [List.filter_eq_self.mpr (fun x hx => by
        rw [mem_contIssues fp ln s x hx]
        simp [isDetail, contIssue])]
  rw [seqCharIssues, charLoop_filter_ne fp ln s "0123456789".toList _
        ["continuation field contains", "illegal character"] false ["try removing"] 73 0
        (pyStrip (seqField s)) (ne_of_head_ne _ _ (by decide))]
  rw [filter_nil_of_mem_eq (mem_leftJustIssues fp ln s) _
        (by simp [isDetail, leftJustIssue,
          ne_of_head_ne (a := "consider left-justifying sequence field")
            (b := "continuation field contains") _ _ (by decide)])]
  rw [filter_nil_of_mem_eq (mem_seqMono_fst fp ln s st) _
        (by simp [isDetail, decSeqIssue,
          ne_of_head_ne (a := "decreasing sequence number")
            (b := "continuation field contains") _ _ (by decide)])]
  simp

/-- The property claimed by C10 of one non-comment line with the
exclamation mark in column 6: exactly one statement-charset Error at
column 6, and no continuation-field Warning at all. -/
def bangProp (fp : String) (ln : Nat) (s : List Char) (st : VState) : Prop :=
  (validateLine fp ln s st).1.countP
      (isIssueAt ["statement contains", "illegal character"] 6) = 1 ∧
  (validateLine fp ln s st).1.filter
      (isDetail ["continuation field contains", "illegal character"]) = []

/-- Claim C10: the exclamation mark is a valid continuation marker yet is
not in the 47-character permitted alphabet, so every non-comment line with
an exclamation mark in column 6 receives an illegal-character Error at
column 6 from the charset rule while the continuation rule stays silent. -/
theorem c10_bang_continuation (fp : String) (ln : Nat) (s : List Char) (st : VState)
    (hc : isComment s = false) (h6 : s[5]? = some '!') :
    CHARSET.toList.contains '!' = false ∧
    pyInStr ['!'] "*!23456789".toList = true ∧
    bangProp fp ln s st := by
  refine ⟨by decide, by decide, ?_, ?_⟩
  · obtain ⟨h5, hget⟩ := List.getElem?_eq_some.mp h6
    have h := validateLine_countP_charset fp ln st s 5 h5
    have hchar : s.get ⟨5, h5⟩ = '!' := by
      rw [List.get_eq_getElem]
      exact hget
    rw [hchar] at h
    have hb : CHARSET.toList.contains '!' = false := by decide
    rw [hb] at h
    exact h
  · rw [validateLine_filter_cont fp ln s st hc,
        contIssues_of_bang fp ln s (contField_of_getElem s '!' h6)]

/-- Witness for C10: the line of five digits followed by the exclamation
continuation marker. -/
theorem c10_witness :
    isComment "12345!".toList = false ∧ ("12345!".toList)[5]? = some '!' ∧
    (CHARSET.toList.contains '!' = false ∧
     pyInStr ['!'] "*!23456789".toList = true ∧
     bangProp "f" 1 "12345!".toList ⟨[], -1⟩) :=
  ⟨by decide, by decide,
    c10_bang_continuation "f" 1 "12345!".toList ⟨[], -1⟩ (by decide) (by decide)⟩

/-- Claim C2 fails on the code (code bug): Python's isdigit method accepts
the superscript digit two (U+00B2), which the int constructor rejects with
ValueError, so on a line whose label field is that single character the
numeric-label guard passes and int(label) raises: the run aborts instead
of finishing, and none of the already-collected diagnostics is ever
reported.  Under the finer numeric model the whole run evaluates to none,
and a well-formed later line is never reached. -/
theorem c2_exception_on_superscript :
    pyIsDigitStrU (pyStrip (labelField ['²'])) = true ∧
    pyIntU (labelField ['²']) = none ∧
    validateLineU "f" 1 ['²'] ⟨[], -1⟩ = none ∧
    runValidatorU "f" [['²'], "      X = 1".toList] = none := by decide
